import Mathlib

/-!
Verification of the invoice document-processing pipeline
(`app/pipeline/pipeline.py`, `app/extraction/extractor.py`,
`app/validation/rule_engine.py`, `app/confidence/confidence.py`).

Shallow embedding conventions:
* Python `Decimal` values are modelled as exact rationals (`ℚ`); the code
  only ever performs exact decimal arithmetic (sums, differences,
  comparisons against the literal tolerance `0.01`), which `ℚ` reproduces
  exactly.
* Python strings are modelled as `String` / `List Char`; the ASCII-level
  behaviour of `str.lower`, `str.strip`, `str.split`, substring tests and
  the regular expressions of `_simple_extract` is reproduced character by
  character (the inputs of interest are ASCII).
* `datetime` values carry only the (year, month, day) triple produced by
  `datetime.strptime` on the four supported formats; comparison is
  lexicographic, as it is for `datetime` values with zero time-of-day.
* Fallible calls (`raise` / `except`) are modelled with `Except String`.
* Human-readable f-string messages are modelled by the inductive `Msg` /
  `EvDetail` types that record the interpolated values instead of the
  rendered text.
-/

/-! ## Python-string primitives -/

/-- Python whitespace for `str.strip` and the regex class `\s`
(ASCII fragment). -/
def isPySpace (c : Char) : Bool :=
  c == ' ' || c == '\t' || c == '\n' || c == '\r' || c == '\x0b' || c == '\x0c'

/-- `s.strip()` on a character list. -/
def pyStrip (cs : List Char) : List Char :=
  ((cs.dropWhile isPySpace).reverse.dropWhile isPySpace).reverse

/-- Substring containment, Python `needle in hay`. -/
def hasSubL (needle : List Char) : List Char → Bool
  | [] => needle.isEmpty
  | c :: t => needle.isPrefixOf (c :: t) || hasSubL needle t

/-- `line.lower()` (ASCII). -/
def lowerL (cs : List Char) : List Char :=
  cs.map Char.toLower

/-- `":" in line`. -/
def hasColon (cs : List Char) : Bool :=
  cs.contains ':'

/-- `line.split(":", 1)[-1]`: everything after the first colon, or the whole
line when it has no colon. -/
def afterFirstColon (cs : List Char) : List Char :=
  match cs.splitOn ':' with
  | [] => cs
  | [s] => s
  | _ :: rest => List.intercalate [':'] rest

/-- `line.split("$")[-1]`: everything after the last dollar sign. -/
def afterLastDollar (cs : List Char) : List Char :=
  (cs.splitOn '$').getLastD cs

/-- `int(ds)` for a digit string. -/
def digitsToNat (ds : List Char) : ℕ :=
  ds.foldl (fun n c => 10 * n + (c.toNat - 48)) 0

/-- `Decimal(s)` for a string made of digits and dots (the only shapes the
extractor ever feeds it): defined iff the string holds at least one digit
and at most one dot; `none` models the `InvalidOperation` exception. -/
def parseDecimalStr (cs : List Char) : Option ℚ :=
  if cs.any (fun c => c.isDigit) = true ∧ cs.count '.' ≤ 1 ∧
      cs.all (fun c => c.isDigit || c == '.') = true then
    some (match cs.splitOn '.' with
      | [i] => (digitsToNat i : ℚ)
      | [i, f] => (digitsToNat i : ℚ) + (digitsToNat f : ℚ) / (10 : ℚ) ^ f.length
      | _ => 0)
  else none

/-! ## Dates (`_parse_date`, `datetime.strptime`) -/

/-- A `datetime` produced by `strptime` (time-of-day is always zero). -/
structure DateT where
  y : ℕ
  m : ℕ
  d : ℕ
deriving DecidableEq

/-- `datetime` comparison: lexicographic on (year, month, day). -/
def dateLt (a b : DateT) : Bool :=
  Nat.blt a.y b.y ||
    (a.y == b.y && (Nat.blt a.m b.m || (a.m == b.m && Nat.blt a.d b.d)))

def isLeap (y : ℕ) : Bool :=
  (decide (y % 4 = 0) && !decide (y % 100 = 0)) || decide (y % 400 = 0)

def daysInMonth (y m : ℕ) : ℕ :=
  if m = 2 then (if isLeap y then 29 else 28)
  else if m = 4 ∨ m = 6 ∨ m = 9 ∨ m = 11 then 30
  else 31

/-- `datetime(y, m, d)`: `none` models the `ValueError` raised on
out-of-range components. -/
def mkDate (y m d : ℕ) : Option DateT :=
  if 1 ≤ y ∧ y ≤ 9999 ∧ 1 ≤ m ∧ m ≤ 12 ∧ 1 ≤ d ∧ d ≤ daysInMonth y m then
    some ⟨y, m, d⟩
  else none

/-- Split a candidate date string into exactly three separator-delimited
components. -/
def splitDate (sep : Char) (cs : List Char) : Option (List Char × List Char × List Char) :=
  match cs.splitOn sep with
  | [a, b, c] => some (a, b, c)
  | _ => none

/-- `strptime` field `%m` / `%d`: one or two digits. -/
def digits2ok (p : List Char) : Bool :=
  decide (1 ≤ p.length) && decide (p.length ≤ 2) && p.all (fun c => c.isDigit)

/-- `strptime` field `%Y`: exactly four digits. -/
def digits4ok (p : List Char) : Bool :=
  decide (p.length = 4) && p.all (fun c => c.isDigit)

/-- `datetime.strptime(s, "%Y-%m-%d")`. -/
def tryYMD (cs : List Char) : Option DateT :=
  match splitDate '-' cs with
  | some (y, m, d) =>
    if digits4ok y && digits2ok m && digits2ok d then
      mkDate (digitsToNat y) (digitsToNat m) (digitsToNat d)
    else none
  | none => none

/-- `datetime.strptime(s, "%m/%d/%Y")`. -/
def tryMDY (cs : List Char) : Option DateT :=
  match splitDate '/' cs with
  | some (m, d, y) =>
    if digits2ok m && digits2ok d && digits4ok y then
      mkDate (digitsToNat y) (digitsToNat m) (digitsToNat d)
    else none
  | none => none

/-- `datetime.strptime(s, "%d/%m/%Y")`. -/
def tryDMYslash (cs : List Char) : Option DateT :=
  match splitDate '/' cs with
  | some (d, m, y) =>
    if digits2ok d && digits2ok m && digits4ok y then
      mkDate (digitsToNat y) (digitsToNat m) (digitsToNat d)
    else none
  | none => none

/-- `datetime.strptime(s, "%d-%m-%Y")`. -/
def tryDMYdash (cs : List Char) : Option DateT :=
  match splitDate '-' cs with
  | some (d, m, y) =>
    if digits2ok d && digits2ok m && digits4ok y then
      mkDate (digitsToNat y) (digitsToNat m) (digitsToNat d)
    else none
  | none => none

/-- `_parse_date`: empty value is falsy; otherwise the four formats are
tried in order and the first that parses wins. -/
def parse_date (cs : List Char) : Option DateT :=
  if cs.isEmpty then none
  else tryYMD cs <|> tryMDY cs <|> tryDMYslash cs <|> tryDMYdash cs

/-! ## Data model (`ExtractedData`, `ValidationResult`) -/

/-- A line-item dict.  The pattern-based extractor emits only the
`description` and `total` keys; `none` in `total` models a missing key
(read back by the rule engine with `item.get("total", 0)`). -/
structure LineItem where
  description : String
  quantity : Option ℚ
  unit_price : Option ℚ
  total : Option ℚ
deriving DecidableEq

structure ExtractedData where
  vendor_name : Option String
  tax_id : Option String
  invoice_number : Option String
  total_amount : Option ℚ
  invoice_date : Option DateT
  due_date : Option DateT
  line_items : Option (List LineItem)
  extraction_confidence : ℚ
  field_confidences : Option (List (String × ℚ))
deriving DecidableEq

/-- Python truthiness for an optional string (`None` and `""` are falsy). -/
def pyFalsyStr : Option String → Bool
  | none => true
  | some s => s == ""

/-- Python truthiness for an optional `Decimal` (`None` and `0` are falsy). -/
def pyFalsyQ : Option ℚ → Bool
  | none => true
  | some q => q == 0

/-- Python truthiness for an optional list (`None` and `[]` are falsy). -/
def pyFalsyItems : Option (List LineItem) → Bool
  | none => true
  | some l => l.isEmpty

/-! ## Pattern-based extractor (`Extractor._simple_extract`) -/

/-- The keyword cue for vendor lines. -/
def vendorCue (l : List Char) : Bool :=
  hasSubL "vendor".toList (lowerL l) || hasSubL "company".toList (lowerL l) ||
    hasSubL "from:".toList (lowerL l)

/-- The keyword cue for tax-id lines. -/
def taxCue (l : List Char) : Bool :=
  hasSubL "tax id".toList (lowerL l) || hasSubL "ein".toList (lowerL l) ||
    hasSubL "vat".toList (lowerL l)

/-- The keyword cue for invoice-number lines. -/
def invCue (l : List Char) : Bool :=
  hasSubL "invoice #".toList (lowerL l) || hasSubL "invoice number".toList (lowerL l) ||
    hasSubL "inv #".toList (lowerL l)

/-- The keyword cue for invoice-date lines. -/
def dateCue (l : List Char) : Bool :=
  hasSubL "invoice date".toList (lowerL l) || hasSubL "date:".toList (lowerL l)

/-- The keyword cue for due-date lines. -/
def dueCue (l : List Char) : Bool :=
  hasSubL "due date".toList (lowerL l) || hasSubL "payment due".toList (lowerL l)

/-- `"total" in line_lower and "$" in line`. -/
def totalCue (l : List Char) : Bool :=
  hasSubL "total".toList (lowerL l) && l.contains '$'

/-- `line.split(":", 1)[-1].strip() if ":" in line else ""`. -/
def rawValue (l : List Char) : List Char :=
  if hasColon l then pyStrip (afterFirstColon l) else []

/-- `re.sub(r"[^\d.]", "", line.split("$")[-1])`. -/
def amountStr (l : List Char) : List Char :=
  (afterLastDollar l).filter (fun c => c.isDigit || c == '.')

/-- Tail of the line-item regex `[\d,]+\.?\d*\s*$` with the capture of
group 2; the character classes make greedy matching without backtracking
equivalent to the regex engine here. -/
def numTail (cs : List Char) : Option (List Char) :=
  let digs := cs.takeWhile (fun c => c.isDigit || c == ',')
  if digs.isEmpty then none
  else
    match cs.drop digs.length with
    | '.' :: r2 =>
      let frac := r2.takeWhile (fun c => c.isDigit)
      if (r2.drop frac.length).all isPySpace then some (digs ++ '.' :: frac)
      else none
    | rest => if rest.all isPySpace then some digs else none

/-- `[\s:]+\$?` followed by `numTail`: the separator run is taken greedily
(a shorter run would leave a separator character where a digit is
required) and a dollar sign, when present, must be consumed. -/
def itemTail (rest : List Char) : Option (List Char) :=
  let sep := rest.takeWhile (fun c => isPySpace c || c == ':')
  if sep.isEmpty then none
  else
    match rest.drop sep.length with
    | '$' :: r2 => numTail r2
    | r2 => numTail r2

/-- `re.match(r"^(.+?)[\s:]+\$?([\d,]+\.?\d*)\s*$", s)`: the lazy group 1
grows one character at a time until the rest of the pattern matches. -/
def itemSearch (d : List Char) : List Char → Option (List Char × List Char)
  | [] => none
  | c :: cs =>
    match itemTail cs with
    | some num => some (d ++ [c], num)
    | none => itemSearch (d ++ [c]) cs

/-! The loop body of `_simple_extract` updates each accumulator
independently of the others, so it is expressed field by field. -/

def vendorStep (v : Option String) (l : List Char) : Option String :=
  if vendorCue l then
    (if hasColon l then some (String.mk (pyStrip (afterFirstColon l))) else v)
  else v

def taxStep (v : Option String) (l : List Char) : Option String :=
  if taxCue l then
    (if hasColon l then some (String.mk (pyStrip (afterFirstColon l))) else v)
  else v

def invStep (v : Option String) (l : List Char) : Option String :=
  if invCue l then
    (if hasColon l then some (String.mk (pyStrip (afterFirstColon l))) else v)
  else v

def totalStep (t : Option ℚ) (l : List Char) : Option ℚ :=
  if totalCue l then
    (if (amountStr l).isEmpty then t else parseDecimalStr (amountStr l))
  else t

def invoiceDateStep (v : Option DateT) (l : List Char) : Option DateT :=
  if dateCue l && v.isNone then parse_date (rawValue l) else v

def dueDateStep (v : Option DateT) (l : List Char) : Option DateT :=
  if dueCue l then parse_date (rawValue l) else v

def itemsStep (items : List LineItem) (l : List Char) : List LineItem :=
  match itemSearch [] (pyStrip l) with
  | some dn =>
    if hasSubL "total".toList (lowerL l) then items
    else
      match parseDecimalStr (dn.2.filter (fun c => !(c == ','))) with
      | some amt => items ++ [⟨String.mk (pyStrip dn.1), none, none, some amt⟩]
      | none => items
  | none => items

structure SimpleAcc where
  vendor_name : Option String
  tax_id : Option String
  invoice_number : Option String
  total_amount : Option ℚ
  invoice_date : Option DateT
  due_date : Option DateT
  line_items : List LineItem
deriving DecidableEq

def simpleStep (acc : SimpleAcc) (line : List Char) : SimpleAcc :=
  ⟨vendorStep acc.vendor_name line,
   taxStep acc.tax_id line,
   invStep acc.invoice_number line,
   totalStep acc.total_amount line,
   invoiceDateStep acc.invoice_date line,
   dueDateStep acc.due_date line,
   itemsStep acc.line_items line⟩

/-- `Extractor._simple_extract`.  `text.split("\n")` is modelled by
splitting the character list on the newline character. -/
def simple_extract (text : String) : ExtractedData :=
  let lines := text.toList.splitOn '\n'
  let acc := lines.foldl simpleStep ⟨none, none, none, none, none, none, []⟩
  let confidence : ℚ :=
    if acc.vendor_name.isSome || acc.tax_id.isSome || acc.invoice_number.isSome ||
        acc.total_amount.isSome then 0.7 else 0.3
  let field_confidences : List (String × ℚ) :=
    [("vendor_name", if pyFalsyStr acc.vendor_name then 0 else 0.8),
     ("tax_id", if pyFalsyStr acc.tax_id then 0 else 0.8),
     ("invoice_number", if pyFalsyStr acc.invoice_number then 0 else 0.8),
     ("total_amount", if pyFalsyQ acc.total_amount then 0 else 0.8),
     ("invoice_date", if acc.invoice_date.isSome then 0.8 else 0),
     ("due_date", if acc.due_date.isSome then 0.8 else 0)]
  ⟨acc.vendor_name, acc.tax_id, acc.invoice_number, acc.total_amount,
   acc.invoice_date, acc.due_date, some acc.line_items, confidence,
   some field_confidences⟩

/-- `Extractor.extract`.  The whole generative path `_llm_extract`
(network call, JSON decoding, field parsing) is abstracted as the fallible
call `llm`; any exception it raises is caught and answered with the
pattern-based extraction of the same text. -/
def extract (mode : String) (llm : String → Except String ExtractedData)
    (ocr_text : String) : ExtractedData :=
  if mode = "llm" then
    match llm ocr_text with
    | Except.ok d => d
    | Except.error _ => simple_extract ocr_text
  else simple_extract ocr_text

/-! ## Rule engine (`app/validation/rule_engine.py`) -/

/-- The interpolated values of the f-string messages of the rule engine. -/
inductive Msg
  | skippedNoLineItems
  | lineItemsMatch (calcTotal : ℚ)
  | lineItemsMismatch (calcTotal total : ℚ)
  | skippedNoTaxId
  | taxIdValid
  | taxIdInvalid (tid : String)
  | skippedNoInvoiceDate
  | dueBeforeInvoice
  | datesConsistent
  | skippedNoInvoiceNumber
  | duplicateInvoice (inv : String)
  | uniqueInvoice (inv : String)
deriving DecidableEq

structure ValidationResult where
  rule_name : String
  passed : Bool
  score : ℚ
  message : Option Msg
deriving DecidableEq

/-- Sum of the line items' `total` values, `Decimal(str(item.get("total", 0)))`
summed over the items (all items are dicts in the embedding). -/
def sumLineItems (items : List LineItem) : ℚ :=
  (items.map (fun item => item.total.getD 0)).sum

/-- `RuleEngine._validate_line_items_sum`.  The guard is Python truthiness:
`not extracted.line_items or not extracted.total_amount`. -/
def validate_line_items_sum (extracted : ExtractedData) : ValidationResult :=
  if pyFalsyItems extracted.line_items || pyFalsyQ extracted.total_amount then
    ⟨"line_items_sum", true, 1, some Msg.skippedNoLineItems⟩
  else
    let calculated_total := sumLineItems (extracted.line_items.getD [])
    let total := extracted.total_amount.getD 0
    if |calculated_total - total| ≤ (1 : ℚ) / 100 then
      ⟨"line_items_sum", true, 1, some (Msg.lineItemsMatch calculated_total)⟩
    else
      ⟨"line_items_sum", false, 0, some (Msg.lineItemsMismatch calculated_total total)⟩

/-- `RuleEngine._validate_tax_id_format`. -/
def validate_tax_id_format (extracted : ExtractedData) : ValidationResult :=
  if pyFalsyStr extracted.tax_id then
    ⟨"tax_id_format", true, 1, some Msg.skippedNoTaxId⟩
  else
    let raw := extracted.tax_id.getD ""
    let tid := raw.toList.filter (fun c => !(c == '-' || c == ' '))
    if (!tid.isEmpty && tid.all (fun c => c.isAlphanum)) = true ∧
        5 ≤ tid.length ∧ tid.length ≤ 20 then
      ⟨"tax_id_format", true, 1, some Msg.taxIdValid⟩
    else
      ⟨"tax_id_format", false, 1 / 2, some (Msg.taxIdInvalid raw)⟩

/-- `RuleEngine._validate_dates`.  A `datetime` object is always truthy, so
the guards are plain `Option` tests. -/
def validate_dates (extracted : ExtractedData) : ValidationResult :=
  match extracted.invoice_date with
  | none => ⟨"date_consistency", true, 1, some Msg.skippedNoInvoiceDate⟩
  | some inv =>
    match extracted.due_date with
    | some due =>
      if dateLt due inv then
        ⟨"date_consistency", false, 0, some Msg.dueBeforeInvoice⟩
      else ⟨"date_consistency", true, 1, some Msg.datesConsistent⟩
    | none => ⟨"date_consistency", true, 1, some Msg.datesConsistent⟩

/-- `RuleEngine._validate_no_duplicate`.  The `set` of known invoice
numbers is modelled as a list queried by membership. -/
def validate_no_duplicate (extracted : ExtractedData)
    (existing_invoice_numbers : List String) : ValidationResult :=
  if pyFalsyStr extracted.invoice_number then
    ⟨"duplicate_invoice", true, 1, some Msg.skippedNoInvoiceNumber⟩
  else
    let inv_num := extracted.invoice_number.getD ""
    if inv_num ∈ existing_invoice_numbers then
      ⟨"duplicate_invoice", false, 0, some (Msg.duplicateInvoice inv_num)⟩
    else
      ⟨"duplicate_invoice", true, 1, some (Msg.uniqueInvoice inv_num)⟩

/-- `RuleEngine.validate` (also `Validator.validate`, a pure delegation). -/
def validate (extracted : ExtractedData)
    (existing_invoice_numbers : Option (List String)) : List ValidationResult :=
  let results := [validate_line_items_sum extracted,
                  validate_tax_id_format extracted,
                  validate_dates extracted]
  match existing_invoice_numbers with
  | some s => results ++ [validate_no_duplicate extracted s]
  | none => results

/-! ## Confidence aggregator (`app/confidence/confidence.py`) -/

structure ConfidenceResult where
  overall : ℚ
  ocr_score : ℚ
  extraction_score : ℚ
  validation_score : ℚ
  per_field : List (String × ℚ)
deriving DecidableEq

/-- Python `round(x, 4)` in exact rational arithmetic: the nearest multiple
of `1 / 10000`. -/
def round4 (x : ℚ) : ℚ :=
  (round (x * 10000) : ℤ) / 10000

/-- The per-field fallback heuristic of `compute_confidence`: `0.8` when the
attribute `is not None`, else `0.0`, over the six canonical fields. -/
def heuristic_per_field (ex : ExtractedData) : List (String × ℚ) :=
  [("vendor_name", if ex.vendor_name.isSome then 0.8 else 0),
   ("tax_id", if ex.tax_id.isSome then 0.8 else 0),
   ("invoice_number", if ex.invoice_number.isSome then 0.8 else 0),
   ("total_amount", if ex.total_amount.isSome then 0.8 else 0),
   ("invoice_date", if ex.invoice_date.isSome then 0.8 else 0),
   ("due_date", if ex.due_date.isSome then 0.8 else 0)]

/-- `compute_confidence`. -/
def compute_confidence (ocr_confidence extraction_confidence : ℚ)
    (validation_results : List ValidationResult)
    (extracted : Option ExtractedData) : ConfidenceResult :=
  let ocr_weight : ℚ := 0.30
  let extraction_weight : ℚ := 0.40
  let validation_weight : ℚ := 0.30
  let validation_score : ℚ :=
    if validation_results.isEmpty then 1
    else ((validation_results.map (fun r => r.score)).sum) / (validation_results.length : ℚ)
  let overall := max 0 (min 1
    (ocr_weight * ocr_confidence + extraction_weight * extraction_confidence +
      validation_weight * validation_score))
  let per_field : List (String × ℚ) :=
    match extracted with
    | none => []
    | some ex =>
      match ex.field_confidences with
      | some fc => if fc.isEmpty then heuristic_per_field ex
                   else fc.map (fun p => (p.1, round4 p.2))
      | none => heuristic_per_field ex
  ⟨round4 overall, round4 ocr_confidence, round4 extraction_confidence,
   round4 validation_score, per_field⟩

/-! ## Processing pipeline (`app/pipeline/pipeline.py`)

The store (an SQLAlchemy `AsyncSession`) is modelled as explicit state:
an association list of documents and append-only lists of extraction,
validation and event rows, plus a commit counter.  `await` points into the
OCR engine and the extractor are modelled by environment-supplied
outcomes (`Env.ocr`, `Env.extractStep`); the wall-clock durations measured
by `_run_step` are likewise ambient inputs (`Env.dOcr`, `Env.dExt`). -/

structure OCRResult where
  text : String
  confidence : ℚ
deriving DecidableEq

structure DocRow where
  status : String
deriving DecidableEq

/-- The interpolated values of the `detail` strings of audit events. -/
inductive EvDetail
  | errText (e : String)
  | valSummary (evaluated passed : ℕ)
  | confOverall (overall : ℚ)
  | finalStatus (status : String) (overall : ℚ)
  | unhandled
deriving DecidableEq

/-- A `ProcessingEvent` row. -/
structure EventRow where
  document_id : ℕ
  step : String
  status : String
  detail : Option EvDetail
  duration_ms : Option ℕ
deriving DecidableEq

/-- An `Extraction` row. -/
structure ExtractionRow where
  document_id : ℕ
  vendor_name : Option String
  tax_id : Option String
  invoice_number : Option String
  total_amount : Option ℚ
  invoice_date : Option DateT
  due_date : Option DateT
  line_items : List LineItem
  field_confidences : Option (List (String × ℚ))
  ocr_text : String
  ocr_confidence : ℚ
  extraction_confidence : ℚ
deriving DecidableEq

/-- A `Validation` row. -/
structure ValidationRow where
  document_id : ℕ
  rule_name : String
  passed : Bool
  score : ℚ
  message : Option Msg
deriving DecidableEq

structure Store where
  docs : List (ℕ × DocRow)
  extractions : List ExtractionRow
  validations : List ValidationRow
  events : List EventRow
  commits : ℕ
deriving DecidableEq

structure Env where
  ocr : Except String OCRResult
  extractStep : String → Except String ExtractedData
  dOcr : ℕ
  dExt : ℕ

/-- `session.get(Document, document_id)`. -/
def getDoc (st : Store) (did : ℕ) : Option DocRow :=
  st.docs.lookup did

/-- `doc.status = s` on the row fetched for `did`. -/
def setDocStatus (st : Store) (did : ℕ) (s : String) : Store :=
  ⟨st.docs.map (fun p => if p.1 = did then (p.1, { p.2 with status := s }) else p),
   st.extractions, st.validations, st.events, st.commits⟩

/-- `session.commit()`. -/
def commitStore (st : Store) : Store :=
  ⟨st.docs, st.extractions, st.validations, st.events, st.commits + 1⟩

/-- `session.add(extraction)`. -/
def addExtraction (st : Store) (row : ExtractionRow) : Store :=
  ⟨st.docs, st.extractions ++ [row], st.validations, st.events, st.commits⟩

/-- `session.add(Validation(...))` over the loop of rule results. -/
def addValidations (st : Store) (rows : List ValidationRow) : Store :=
  ⟨st.docs, st.extractions, st.validations ++ rows, st.events, st.commits⟩

/-- `ProcessingPipeline._emit_event`: append one `ProcessingEvent` row
(the subsequent `flush` does not change observable state). -/
def emit_event (st : Store) (did : ℕ) (step status : String)
    (detail : Option EvDetail) (dur : Option ℕ) : Store :=
  ⟨st.docs, st.extractions, st.validations,
   st.events ++ [⟨did, step, status, detail, dur⟩], st.commits⟩

/-- `ProcessingPipeline._run_step`: a `started` event, the awaited call,
then a `completed` event carrying the measured duration, or a `failed`
event carrying the error text and the duration before re-raising. -/
def run_step {α : Type} (st : Store) (did : ℕ) (step : String) (dur : ℕ)
    (res : Except String α) : Except (String × Store) (α × Store) :=
  let st1 := emit_event st did step "started" none none
  match res with
  | Except.ok a => Except.ok (a, emit_event st1 did step "completed" none (some dur))
  | Except.error e =>
    Except.error (e, emit_event st1 did step "failed" (some (EvDetail.errText e)) (some dur))

/-- `ProcessingPipeline._get_existing_invoice_numbers`: the non-null
invoice numbers of other documents' extractions, with empty strings
dropped by the set comprehension (the Python `set` is modelled as a list
queried by membership). -/
def get_existing_invoice_numbers (st : Store) (did : ℕ) : List String :=
  ((st.extractions.filter (fun ex => ex.document_id ≠ did)).filterMap
    (fun ex => ex.invoice_number)).filter (fun r => r ≠ "")

/-- The result of a pipeline invocation: normal return, or a re-raised
exception, each with the final state of the store. -/
inductive RunResult
  | ok (s : Store)
  | raised (e : String) (s : Store)
deriving DecidableEq

/-- The `except Exception` handler of `process_document`. -/
def failHandler (st : Store) (did : ℕ) (e : String) : RunResult :=
  let st1 := setDocStatus st did "failed"
  let st2 := commitStore st1
  let st3 := emit_event st2 did "failed" "failed" (some EvDetail.unhandled) none
  let st4 := commitStore st3
  RunResult.raised e st4

/-- `ProcessingPipeline.process_document`. -/
def process_document (env : Env) (did : ℕ) (st : Store) : RunResult :=
  match getDoc st did with
  | none => RunResult.raised ("Document " ++ toString did ++ " not found") st
  | some doc =>
    if doc.status = "completed" then RunResult.ok st
    else
      let st := setDocStatus st did "processing"
      match run_step st did "ocr" env.dOcr env.ocr with
      | Except.error (e, st) => failHandler st did e
      | Except.ok (ocr_result, st) =>
        match run_step st did "extraction" env.dExt (env.extractStep ocr_result.text) with
        | Except.error (e, st) => failHandler st did e
        | Except.ok (extracted, st) =>
          let existing_invoice_numbers := get_existing_invoice_numbers st did
          let validation_results := validate extracted (some existing_invoice_numbers)
          let st := emit_event st did "validation" "completed"
            (some (EvDetail.valSummary validation_results.length
              (validation_results.filter (fun r => r.passed)).length)) none
          let confidence := compute_confidence ocr_result.confidence
            extracted.extraction_confidence validation_results (some extracted)
          let st := emit_event st did "confidence" "completed"
            (some (EvDetail.confOverall confidence.overall)) none
          let st := addExtraction st ⟨did, extracted.vendor_name, extracted.tax_id,
            extracted.invoice_number, extracted.total_amount,
            extracted.invoice_date, extracted.due_date,
            extracted.line_items.getD [],
            (if confidence.per_field.isEmpty then none else some confidence.per_field),
            ocr_result.text, ocr_result.confidence,
            extracted.extraction_confidence⟩
          let st := addValidations st (validation_results.map
            (fun vr => ⟨did, vr.rule_name, vr.passed, vr.score, vr.message⟩))
          let all_passed := validation_results.all (fun vr => vr.passed)
          let final : String :=
            if confidence.overall < 0.6 ∨ all_passed = false then "review" else "completed"
          let st := setDocStatus st did final
          let st := commitStore st
          let st := emit_event st did "completed" "completed"
            (some (EvDetail.finalStatus final confidence.overall)) none
          let st := commitStore st
          RunResult.ok st

/-! ## Concrete fixtures used by witnesses and counterexamples -/

/-- An `ExtractedData()` with every field at its default. -/
def exAllNone : ExtractedData :=
  ⟨none, none, none, none, none, none, none, 0, none⟩

/-- Line items summing to 5 with an extracted total of `Decimal("0")`. -/
def exZeroTotal : ExtractedData :=
  ⟨none, none, none, some 0, none, none,
   some [⟨"Widget", none, none, some 5⟩], 0, none⟩

/-- Line items summing to 5 with an extracted total of 7. -/
def exMismatch : ExtractedData :=
  ⟨none, none, none, some 7, none, none,
   some [⟨"Widget", none, none, some 5⟩], 0, none⟩

/-- A store holding one pending document. -/
def stPendingW : Store := ⟨[(1, ⟨"pending"⟩)], [], [], [], 0⟩

/-- A store holding one completed document. -/
def stCompletedW : Store := ⟨[(1, ⟨"completed"⟩)], [], [], [], 0⟩

/-- An environment whose providers succeed. -/
def envOkW : Env := ⟨Except.ok ⟨"", 1⟩, fun _ => Except.ok exAllNone, 5, 7⟩

/-- An environment whose OCR provider raises. -/
def envErrW : Env := ⟨Except.error "boom", fun _ => Except.ok exAllNone, 5, 7⟩

/-! ## Helper lemmas -/

theorem pyFalsyStr_iff (o : Option String) :
    pyFalsyStr o = true ↔ o = none ∨ o = some "" := by
  cases o <;> simp [pyFalsyStr]

theorem pyFalsyQ_iff (o : Option ℚ) :
    pyFalsyQ o = true ↔ o = none ∨ o = some 0 := by
  cases o <;> simp [pyFalsyQ]

theorem pyFalsyItems_iff (o : Option (List LineItem)) :
    pyFalsyItems o = true ↔ o = none ∨ o = some [] := by
  cases o <;> simp [pyFalsyItems, List.isEmpty_iff]

theorem rule_name_line_items (ex : ExtractedData) :
    (validate_line_items_sum ex).rule_name = "line_items_sum" := by
  unfold validate_line_items_sum
  dsimp only
  split <;> first | rfl | (split <;> rfl)

theorem rule_name_tax_id (ex : ExtractedData) :
    (validate_tax_id_format ex).rule_name = "tax_id_format" := by
  unfold validate_tax_id_format
  dsimp only
  split <;> first | rfl | (split <;> rfl)

theorem rule_name_dates (ex : ExtractedData) :
    (validate_dates ex).rule_name = "date_consistency" := by
  unfold validate_dates
  cases ex.invoice_date with
  | none => rfl
  | some inv =>
    cases ex.due_date with
    | none => rfl
    | some due => dsimp only; split <;> rfl

theorem rule_name_no_duplicate (ex : ExtractedData) (s : List String) :
    (validate_no_duplicate ex s).rule_name = "duplicate_invoice" := by
  unfold validate_no_duplicate
  dsimp only
  split <;> first | rfl | (split <;> rfl)

theorem shape_line_items (ex : ExtractedData) :
    ((validate_line_items_sum ex).passed = true ∧ (validate_line_items_sum ex).score = 1) ∨
      ((validate_line_items_sum ex).passed = false ∧ (validate_line_items_sum ex).score = 0) := by
  unfold validate_line_items_sum
  dsimp only
  split
  · exact Or.inl ⟨rfl, rfl⟩
  · split
    · exact Or.inl ⟨rfl, rfl⟩
    · exact Or.inr ⟨rfl, rfl⟩

theorem shape_tax_id (ex : ExtractedData) :
    ((validate_tax_id_format ex).passed = true ∧ (validate_tax_id_format ex).score = 1) ∨
      ((validate_tax_id_format ex).passed = false ∧ (validate_tax_id_format ex).score = 1 / 2) := by
  unfold validate_tax_id_format
  dsimp only
  split
  · exact Or.inl ⟨rfl, rfl⟩
  · split
    · exact Or.inl ⟨rfl, rfl⟩
    · exact Or.inr ⟨rfl, rfl⟩

theorem shape_dates (ex : ExtractedData) :
    ((validate_dates ex).passed = true ∧ (validate_dates ex).score = 1) ∨
      ((validate_dates ex).passed = false ∧ (validate_dates ex).score = 0) := by
  unfold validate_dates
  cases ex.invoice_date with
  | none => exact Or.inl ⟨rfl, rfl⟩
  | some inv =>
    cases ex.due_date with
    | none => exact Or.inl ⟨rfl, rfl⟩
    | some due =>
      dsimp only
      split
      · exact Or.inr ⟨rfl, rfl⟩
      · exact Or.inl ⟨rfl, rfl⟩

theorem shape_no_duplicate (ex : ExtractedData) (s : List String) :
    ((validate_no_duplicate ex s).passed = true ∧ (validate_no_duplicate ex s).score = 1) ∨
      ((validate_no_duplicate ex s).passed = false ∧ (validate_no_duplicate ex s).score = 0) := by
  unfold validate_no_duplicate
  dsimp only
  split
  · exact Or.inl ⟨rfl, rfl⟩
  · split
    · exact Or.inr ⟨rfl, rfl⟩
    · exact Or.inl ⟨rfl, rfl⟩

theorem round4_nonneg {x : ℚ} (hx : 0 ≤ x) : 0 ≤ round4 x := by
  unfold round4
  have h1 : (0 : ℤ) ≤ round (x * 10000) := by
    rw [round_eq, Int.le_floor]
    push_cast
    nlinarith
  have h2 : (0 : ℚ) ≤ (round (x * 10000) : ℤ) := by exact_mod_cast h1
  positivity

theorem round4_le_one {x : ℚ} (hx : x ≤ 1) : round4 x ≤ 1 := by
  unfold round4
  have h1 : round (x * 10000) ≤ 10000 := by
    rw [round_eq, Int.floor_le_iff]
    push_cast
    nlinarith
  rw [div_le_one (by norm_num : (0 : ℚ) < 10000)]
  exact_mod_cast h1

theorem lookup_map_set (l : List (ℕ × DocRow)) (did : ℕ) (s : String) :
    (l.map (fun p => if p.1 = did then (p.1, { p.2 with status := s }) else p)).lookup did
      = (l.lookup did).map (fun _ => DocRow.mk s) := by
  induction l with
  | nil => rfl
  | cons p t ih =>
    obtain ⟨k, v⟩ := p
    by_cases h : k = did
    · subst h
      simp [List.lookup_cons, ih]
    · have hbeq : (did == k) = false := by
        simp [beq_iff_eq]
        exact fun hh => h hh.symm
      simp [List.lookup_cons, h, hbeq, ih]

theorem getDoc_setDocStatus (st : Store) (did : ℕ) (s : String) :
    getDoc (setDocStatus st did s) did = (getDoc st did).map (fun _ => DocRow.mk s) := by
  unfold getDoc setDocStatus
  exact lookup_map_set st.docs did s

theorem shape_implies (r : ValidationResult)
    (h : (r.passed = true ∧ r.score = 1) ∨
      (r.passed = false ∧ (r.score = 0 ∨ r.score = 1 / 2))) :
    ((r.passed = true ↔ r.score = 1) ∧ (r.passed = false → r.score = 0 ∨ r.score = 1 / 2)
      ∧ (r.score = 0 ∨ r.score = 1 / 2 ∨ r.score = 1)) := by
  rcases h with ⟨hp, hs⟩ | ⟨hp, hs⟩
  · refine ⟨⟨fun _ => hs, fun _ => hp⟩, ?_, Or.inr (Or.inr hs)⟩
    intro hf
    rw [hp] at hf
    cases hf
  · refine ⟨⟨?_, ?_⟩, fun _ => hs, ?_⟩
    · intro ht
      rw [hp] at ht
      cases ht
    · intro h1
      rcases hs with h0 | hh
      · rw [h0] at h1; norm_num at h1
      · rw [hh] at h1; norm_num at h1
    · rcases hs with h0 | hh
      exacts [Or.inl h0, Or.inr (Or.inl hh)]

/-! ## Claim theorems -/

/-- C2: invoking `process_document` on a document whose status is already
`completed` returns without any store mutation and without emitting any
audit event: the state is returned unchanged, because the idempotency
guard runs before any mutation or event emission. -/
theorem completed_document_noop (env : Env) (did : ℕ) (st : Store) (doc : DocRow)
    (hdoc : getDoc st did = some doc) (hc : doc.status = "completed") :
    process_document env did st = RunResult.ok st := by
  unfold process_document
  rw [hdoc]
  simp [hc]

theorem completed_document_noop_witness :
    process_document envOkW 1 stCompletedW = RunResult.ok stCompletedW :=
  completed_document_noop envOkW 1 stCompletedW ⟨"completed"⟩ rfl rfl

/-- C4: in generative (`llm`) mode, when the generative path raises any
exception, `Extractor.extract` answers with the pattern-based extraction
of the same text instead of propagating the exception (the model of
`extract` is a total function, so no exception escapes it). -/
theorem extract_generative_fallback (llm : String → Except String ExtractedData)
    (t e : String) (h : llm t = Except.error e) :
    extract "llm" llm t = simple_extract t := by
  unfold extract
  rw [if_pos rfl, h]

theorem extract_generative_fallback_witness :
    extract "llm" (fun _ => Except.error "network down") "Total: $5"
      = simple_extract "Total: $5" :=
  extract_generative_fallback (fun _ => Except.error "network down") "Total: $5"
    "network down" rfl

/-- C5: with `existing_invoice_numbers` omitted, no `duplicate_invoice`
result appears; with a set supplied, exactly one appears: skip (pass, 1.0)
when no invoice number was extracted (`None`, or the falsy empty string,
which the code treats as not extracted), fail (0.0) when the extracted
number is a member of the set, pass (1.0) otherwise. -/
theorem duplicate_invoice_rule_conditional (ex : ExtractedData) (s : List String) :
    (validate ex none).filter (fun r => r.rule_name == "duplicate_invoice") = []
    ∧ ((validate ex (some s)).filter
        (fun r => r.rule_name == "duplicate_invoice")).map (fun r => (r.passed, r.score))
      = [match ex.invoice_number with
         | none => (true, (1 : ℚ))
         | some n => if n = "" then (true, 1) else if n ∈ s then (false, 0) else (true, 1)] := by
  have h1 : ((validate_line_items_sum ex).rule_name == "duplicate_invoice") = false := by
    rw [rule_name_line_items]; decide
  have h2 : ((validate_tax_id_format ex).rule_name == "duplicate_invoice") = false := by
    rw [rule_name_tax_id]; decide
  have h3 : ((validate_dates ex).rule_name == "duplicate_invoice") = false := by
    rw [rule_name_dates]; decide
  have h4 : ((validate_no_duplicate ex s).rule_name == "duplicate_invoice") = true := by
    rw [rule_name_no_duplicate]; decide
  constructor
  · simp [validate, List.filter_cons, h1, h2, h3]
  · simp only [validate, List.filter_cons, List.filter_append, List.filter_nil, h1, h2, h3,
      h4, if_true, if_false, List.nil_append, List.map_cons, List.map_nil]
    cases hinv : ex.invoice_number with
    | none => simp [validate_no_duplicate, pyFalsyStr, hinv]
    | some n =>
      by_cases hn : n = ""
      · simp [validate_no_duplicate, pyFalsyStr, hinv, hn]
      · by_cases hm : n ∈ s <;>
          simp [validate_no_duplicate, pyFalsyStr, hinv, hn, hm]

/-- C6 (counterexample): the claim says the rule skips exactly when there
are no line items or no total amount, and otherwise fails when the sums
differ by more than 0.01.  Here a total amount is extracted (`Decimal("0")`),
line items are present and sum to 5, yet the rule skips with a pass,
because the Python truthiness guard `not extracted.total_amount` also
fires on a zero total. -/
theorem line_items_sum_zero_total_refutes :
    exZeroTotal.total_amount = some 0
    ∧ exZeroTotal.line_items = some [⟨"Widget", none, none, some 5⟩]
    ∧ sumLineItems (exZeroTotal.line_items.getD []) = 5
    ∧ ¬ |sumLineItems (exZeroTotal.line_items.getD []) - (0 : ℚ)| ≤ 1 / 100
    ∧ (validate_line_items_sum exZeroTotal).passed = true
    ∧ (validate_line_items_sum exZeroTotal).score = 1
    ∧ (validate_line_items_sum exZeroTotal).message = some Msg.skippedNoLineItems := by
  have hsum : sumLineItems (exZeroTotal.line_items.getD []) = 5 := by
    simp [sumLineItems, exZeroTotal]
  have hrule : validate_line_items_sum exZeroTotal
      = ⟨"line_items_sum", true, 1, some Msg.skippedNoLineItems⟩ := by
    unfold validate_line_items_sum
    rw [if_pos]
    simp [exZeroTotal, pyFalsyItems, pyFalsyQ]
  refine ⟨rfl, rfl, hsum, ?_, ?_, ?_, ?_⟩
  · rw [hsum]; norm_num
  · rw [hrule]
  · rw [hrule]
  · rw [hrule]

/-- C6 (amended): the rule skips (pass, 1.0) exactly when there are no
line items (absent or empty) or the total amount is absent **or zero**;
otherwise it sums the items' `total` values as exact decimals and passes
(1.0) when the absolute difference from the total is at most 0.01, and
fails (0.0) with a message carrying both the calculated sum and the total
otherwise. -/
theorem line_items_sum_rule_amended (ex : ExtractedData) :
    (ex.line_items = none ∨ ex.line_items = some [] ∨ ex.total_amount = none ∨
        ex.total_amount = some 0 →
      validate_line_items_sum ex = ⟨"line_items_sum", true, 1, some Msg.skippedNoLineItems⟩)
    ∧ (¬(ex.line_items = none ∨ ex.line_items = some [] ∨ ex.total_amount = none ∨
        ex.total_amount = some 0) →
      (|sumLineItems (ex.line_items.getD []) - ex.total_amount.getD 0| ≤ 1 / 100 →
        validate_line_items_sum ex = ⟨"line_items_sum", true, 1,
          some (Msg.lineItemsMatch (sumLineItems (ex.line_items.getD [])))⟩)
      ∧ (¬ |sumLineItems (ex.line_items.getD []) - ex.total_amount.getD 0| ≤ 1 / 100 →
        validate_line_items_sum ex = ⟨"line_items_sum", false, 0,
          some (Msg.lineItemsMismatch (sumLineItems (ex.line_items.getD []))
            (ex.total_amount.getD 0))⟩)) := by
  have hfal : (pyFalsyItems ex.line_items || pyFalsyQ ex.total_amount) = true ↔
      (ex.line_items = none ∨ ex.line_items = some [] ∨ ex.total_amount = none ∨
        ex.total_amount = some 0) := by
    rw [Bool.or_eq_true, pyFalsyItems_iff, pyFalsyQ_iff]
    tauto
  constructor
  · intro h
    unfold validate_line_items_sum
    rw [if_pos (hfal.mpr h)]
  · intro h
    have hf : ¬ ((pyFalsyItems ex.line_items || pyFalsyQ ex.total_amount) = true) :=
      fun hb => h (hfal.mp hb)
    unfold validate_line_items_sum
    rw [if_neg hf]
    dsimp only
    constructor
    · intro h2
      rw [if_pos h2]
    · intro h2
      rw [if_neg h2]

theorem line_items_sum_rule_amended_witness :
    validate_line_items_sum exMismatch
      = ⟨"line_items_sum", false, 0, some (Msg.lineItemsMismatch 5 7)⟩ := by
  have hsum : sumLineItems (exMismatch.line_items.getD []) = 5 := by
    simp [sumLineItems, exMismatch]
  have ht : exMismatch.total_amount.getD 0 = 7 := rfl
  have hA : ¬(exMismatch.line_items = none ∨ exMismatch.line_items = some [] ∨
      exMismatch.total_amount = none ∨ exMismatch.total_amount = some 0) := by
    norm_num [exMismatch]
    exact ⟨fun h => Option.noConfusion h, fun h => Option.noConfusion h⟩
  have hB : ¬ |sumLineItems (exMismatch.line_items.getD [])
      - exMismatch.total_amount.getD 0| ≤ 1 / 100 := by
    rw [hsum, ht]; norm_num
  have h := ((line_items_sum_rule_amended exMismatch).2 hA).2 hB
  rw [hsum, ht] at h
  exact h

/-- C7: for all rational inputs, including out-of-range component scores,
the overall confidence equals the clamp to [0,1] of
0.30·ocr + 0.40·extraction + 0.30·validation rounded to four decimal
places, where validation is the mean of the result scores or 1.0 on an
empty list, and that overall score always lies in [0,1]. -/
theorem compute_confidence_overall_clamped (o e : ℚ) (vrs : List ValidationResult)
    (ext : Option ExtractedData) :
    (compute_confidence o e vrs ext).overall
      = round4 (max 0 (min 1 (0.30 * o + 0.40 * e + 0.30 *
          (if vrs = [] then 1 else ((vrs.map (fun r => r.score)).sum / (vrs.length : ℚ))))))
    ∧ 0 ≤ (compute_confidence o e vrs ext).overall
    ∧ (compute_confidence o e vrs ext).overall ≤ 1 := by
  refine ⟨?_, ?_, ?_⟩
  · by_cases h : vrs = [] <;> simp [compute_confidence, h, List.isEmpty_iff]
  · unfold compute_confidence
    dsimp only
    exact round4_nonneg (le_max_left _ _)
  · unfold compute_confidence
    dsimp only
    exact round4_le_one (max_le (by norm_num) (min_le_left _ _))

/-- C9: every result of `RuleEngine.validate` has `passed = true` exactly
when its score is 1.0, a failing score of 0.0 or 0.5, and a score in
{0.0, 0.5, 1.0}. -/
theorem validate_scores_invariant (ex : ExtractedData) (nums : Option (List String))
    (r : ValidationResult) (hr : r ∈ validate ex nums) :
    ((r.passed = true ↔ r.score = 1) ∧ (r.passed = false → r.score = 0 ∨ r.score = 1 / 2)
      ∧ (r.score = 0 ∨ r.score = 1 / 2 ∨ r.score = 1)) := by
  apply shape_implies
  have hcase : r = validate_line_items_sum ex ∨ r = validate_tax_id_format ex ∨
      r = validate_dates ex ∨ ∃ s, r = validate_no_duplicate ex s := by
    cases nums with
    | none =>
      simp only [validate, List.mem_cons, List.not_mem_nil, or_false] at hr
      tauto
    | some s =>
      simp only [validate, List.mem_append, List.mem_cons, List.not_mem_nil, or_false,
        List.mem_singleton] at hr
      rcases hr with (h | h | h) | h
      exacts [Or.inl h, Or.inr (Or.inl h), Or.inr (Or.inr (Or.inl h)),
        Or.inr (Or.inr (Or.inr ⟨s, h⟩))]
  rcases hcase with h | h | h | ⟨s, h⟩
  · subst h
    rcases shape_line_items ex with ⟨a, b⟩ | ⟨a, b⟩
    exacts [Or.inl ⟨a, b⟩, Or.inr ⟨a, Or.inl b⟩]
  · subst h
    rcases shape_tax_id ex with ⟨a, b⟩ | ⟨a, b⟩
    exacts [Or.inl ⟨a, b⟩, Or.inr ⟨a, Or.inr b⟩]
  · subst h
    rcases shape_dates ex with ⟨a, b⟩ | ⟨a, b⟩
    exacts [Or.inl ⟨a, b⟩, Or.inr ⟨a, Or.inl b⟩]
  · subst h
    rcases shape_no_duplicate ex s with ⟨a, b⟩ | ⟨a, b⟩
    exacts [Or.inl ⟨a, b⟩, Or.inr ⟨a, Or.inl b⟩]

theorem validate_scores_invariant_witness :
    (((ValidationResult.mk "line_items_sum" true 1 (some Msg.skippedNoLineItems)).passed = true
        ↔ (ValidationResult.mk "line_items_sum" true 1 (some Msg.skippedNoLineItems)).score = 1)
      ∧ ((ValidationResult.mk "line_items_sum" true 1 (some Msg.skippedNoLineItems)).passed = false
          → (ValidationResult.mk "line_items_sum" true 1 (some Msg.skippedNoLineItems)).score = 0
            ∨ (ValidationResult.mk "line_items_sum" true 1 (some Msg.skippedNoLineItems)).score = 1 / 2)
      ∧ ((ValidationResult.mk "line_items_sum" true 1 (some Msg.skippedNoLineItems)).score = 0
          ∨ (ValidationResult.mk "line_items_sum" true 1 (some Msg.skippedNoLineItems)).score = 1 / 2
          ∨ (ValidationResult.mk "line_items_sum" true 1 (some Msg.skippedNoLineItems)).score = 1)) :=
  validate_scores_invariant exAllNone none
    ⟨"line_items_sum", true, 1, some Msg.skippedNoLineItems⟩ (by decide)

/-! ### Store-operation projection lemmas -/

@[simp] theorem getDoc_emit_event (st : Store) (d : ℕ) (a b : String)
    (c : Option EvDetail) (e : Option ℕ) (did : ℕ) :
    getDoc (emit_event st d a b c e) did = getDoc st did := rfl

@[simp] theorem getDoc_commitStore (st : Store) (did : ℕ) :
    getDoc (commitStore st) did = getDoc st did := rfl

@[simp] theorem getDoc_addExtraction (st : Store) (row : ExtractionRow) (did : ℕ) :
    getDoc (addExtraction st row) did = getDoc st did := rfl

@[simp] theorem getDoc_addValidations (st : Store) (rows : List ValidationRow) (did : ℕ) :
    getDoc (addValidations st rows) did = getDoc st did := rfl

@[simp] theorem events_emit_event (st : Store) (d : ℕ) (a b : String)
    (c : Option EvDetail) (e : Option ℕ) :
    (emit_event st d a b c e).events = st.events ++ [⟨d, a, b, c, e⟩] := rfl

@[simp] theorem events_commitStore (st : Store) : (commitStore st).events = st.events := rfl

@[simp] theorem events_setDocStatus (st : Store) (did : ℕ) (s : String) :
    (setDocStatus st did s).events = st.events := rfl

@[simp] theorem events_addExtraction (st : Store) (row : ExtractionRow) :
    (addExtraction st row).events = st.events := rfl

@[simp] theorem events_addValidations (st : Store) (rows : List ValidationRow) :
    (addValidations st rows).events = st.events := rfl

@[simp] theorem commits_emit_event (st : Store) (d : ℕ) (a b : String)
    (c : Option EvDetail) (e : Option ℕ) :
    (emit_event st d a b c e).commits = st.commits := rfl

@[simp] theorem commits_commitStore (st : Store) :
    (commitStore st).commits = st.commits + 1 := rfl

@[simp] theorem commits_setDocStatus (st : Store) (did : ℕ) (s : String) :
    (setDocStatus st did s).commits = st.commits := rfl

@[simp] theorem commits_addExtraction (st : Store) (row : ExtractionRow) :
    (addExtraction st row).commits = st.commits := rfl

@[simp] theorem commits_addValidations (st : Store) (rows : List ValidationRow) :
    (addValidations st rows).commits = st.commits := rfl

@[simp] theorem gein_emit_event (st : Store) (d : ℕ) (a b : String)
    (c : Option EvDetail) (e : Option ℕ) (did : ℕ) :
    get_existing_invoice_numbers (emit_event st d a b c e) did
      = get_existing_invoice_numbers st did := rfl

@[simp] theorem gein_setDocStatus (st : Store) (did' : ℕ) (s : String) (did : ℕ) :
    get_existing_invoice_numbers (setDocStatus st did' s) did
      = get_existing_invoice_numbers st did := rfl

@[simp] theorem gein_commitStore (st : Store) (did : ℕ) :
    get_existing_invoice_numbers (commitStore st) did
      = get_existing_invoice_numbers st did := rfl

/-- The success path of `process_document`: with the document found and not
completed and both provider calls succeeding, the run returns normally,
decides the final status from the confidence and the rule results, emits
the seven audit events in order, and commits twice. -/
theorem run_success (env : Env) (did : ℕ) (st : Store) (doc : DocRow) (o : OCRResult)
    (ex : ExtractedData) (hdoc : getDoc st did = some doc) (hne : doc.status ≠ "completed")
    (hocr : env.ocr = Except.ok o) (hext : env.extractStep o.text = Except.ok ex) :
    ∃ st' : Store,
      process_document env did st = RunResult.ok st'
      ∧ (let vrs := validate ex (some (get_existing_invoice_numbers st did));
         let conf := compute_confidence o.confidence ex.extraction_confidence vrs (some ex);
         let fin : String := if conf.overall < 0.6 ∨ vrs.all (fun vr => vr.passed) = false
                    then "review" else "completed";
         getDoc st' did = some ⟨fin⟩
         ∧ st'.events = st.events ++
            [⟨did, "ocr", "started", none, none⟩,
             ⟨did, "ocr", "completed", none, some env.dOcr⟩,
             ⟨did, "extraction", "started", none, none⟩,
             ⟨did, "extraction", "completed", none, some env.dExt⟩,
             ⟨did, "validation", "completed",
               some (EvDetail.valSummary vrs.length (vrs.filter (fun r => r.passed)).length),
               none⟩,
             ⟨did, "confidence", "completed", some (EvDetail.confOverall conf.overall), none⟩,
             ⟨did, "completed", "completed",
               some (EvDetail.finalStatus fin conf.overall), none⟩]
         ∧ st'.commits = st.commits + 2) := by
  unfold process_document
  rw [hdoc]
  dsimp only
  rw [if_neg hne]
  unfold run_step
  rw [hocr]
  dsimp only
  rw [hext]
  dsimp only
  refine ⟨_, rfl, ?_, ?_, ?_⟩
  · simp only [getDoc_commitStore, getDoc_emit_event, getDoc_addExtraction,
      getDoc_addValidations, gein_emit_event, gein_setDocStatus, getDoc_setDocStatus, hdoc,
      Option.map_some]
    rfl
  · simp only [events_commitStore, events_emit_event, events_setDocStatus,
      events_addExtraction, events_addValidations, gein_emit_event, gein_setDocStatus,
      List.append_assoc, List.cons_append, List.nil_append]
  · simp only [commits_commitStore, commits_emit_event, commits_setDocStatus,
      commits_addExtraction, commits_addValidations]

/-- C1: a pipeline run that reaches the final-status decision assigns
`review` exactly when the computed overall confidence is below 0.6 or at
least one validation result failed, and `completed` otherwise; no other
status is possible at that point. -/
theorem final_status_review_or_completed (env : Env) (did : ℕ) (st : Store) (doc : DocRow)
    (o : OCRResult) (ex : ExtractedData) (hdoc : getDoc st did = some doc)
    (hne : doc.status ≠ "completed") (hocr : env.ocr = Except.ok o)
    (hext : env.extractStep o.text = Except.ok ex) :
    ∃ st' : Store, process_document env did st = RunResult.ok st'
      ∧ getDoc st' did = some ⟨if (compute_confidence o.confidence ex.extraction_confidence
            (validate ex (some (get_existing_invoice_numbers st did))) (some ex)).overall < 0.6
          ∨ (∃ r ∈ validate ex (some (get_existing_invoice_numbers st did)), r.passed = false)
          then "review" else "completed"⟩ := by
  obtain ⟨st', h1, h2, h3, h4⟩ := run_success env did st doc o ex hdoc hne hocr hext
  refine ⟨st', h1, ?_⟩
  rw [h2]
  simp only [List.all_eq_false, Bool.not_eq_true]

/-- C8: a successful run on a found, non-completed document emits exactly
a started/terminal pair (with measured duration) for the ocr and
extraction steps, a single terminal completed event for validation, a
single terminal completed event for confidence, and one standalone final
completed event, in that order; validation and confidence never emit a
started event. -/
theorem audit_event_sequence (env : Env) (did : ℕ) (st : Store) (doc : DocRow)
    (o : OCRResult) (ex : ExtractedData) (hdoc : getDoc st did = some doc)
    (hne : doc.status ≠ "completed") (hocr : env.ocr = Except.ok o)
    (hext : env.extractStep o.text = Except.ok ex) :
    ∃ st' : Store, process_document env did st = RunResult.ok st'
      ∧ (let vrs := validate ex (some (get_existing_invoice_numbers st did));
         let conf := compute_confidence o.confidence ex.extraction_confidence vrs (some ex);
         let fin : String := if conf.overall < 0.6 ∨ vrs.all (fun vr => vr.passed) = false
                    then "review" else "completed";
         st'.events = st.events ++
            [⟨did, "ocr", "started", none, none⟩,
             ⟨did, "ocr", "completed", none, some env.dOcr⟩,
             ⟨did, "extraction", "started", none, none⟩,
             ⟨did, "extraction", "completed", none, some env.dExt⟩,
             ⟨did, "validation", "completed",
               some (EvDetail.valSummary vrs.length (vrs.filter (fun r => r.passed)).length),
               none⟩,
             ⟨did, "confidence", "completed", some (EvDetail.confOverall conf.overall), none⟩,
             ⟨did, "completed", "completed",
               some (EvDetail.finalStatus fin conf.overall), none⟩]) := by
  obtain ⟨st', h1, h2, h3, h4⟩ := run_success env did st doc o ex hdoc hne hocr hext
  exact ⟨st', h1, h3⟩

/-- C3: when a step of the try-body raises on a found, non-completed
document, the pipeline sets the document status to `failed`, emits a
`ProcessingEvent` with step `failed` and status `failed`, commits (twice,
as the code does), and re-raises the original exception; it is never
silently absorbed. -/
theorem failure_marks_failed_and_reraises (env : Env) (did : ℕ) (st : Store) (doc : DocRow)
    (e : String) (hdoc : getDoc st did = some doc) (hne : doc.status ≠ "completed")
    (herr : env.ocr = Except.error e ∨
      ∃ o, env.ocr = Except.ok o ∧ env.extractStep o.text = Except.error e) :
    ∃ st' : Store, process_document env did st = RunResult.raised e st'
      ∧ getDoc st' did = some ⟨"failed"⟩
      ∧ st'.events.getLast? = some ⟨did, "failed", "failed", some EvDetail.unhandled, none⟩
      ∧ st'.commits = st.commits + 2 := by
  rcases herr with hocr | ⟨o, hocr, hext⟩
  · unfold process_document
    rw [hdoc]
    dsimp only
    rw [if_neg hne]
    unfold run_step
    rw [hocr]
    dsimp only
    unfold failHandler
    refine ⟨_, rfl, ?_, ?_, ?_⟩
    · simp only [getDoc_commitStore, getDoc_emit_event, getDoc_setDocStatus, hdoc,
        Option.map_some]
      rfl
    · simp only [events_commitStore, events_emit_event, events_setDocStatus]
      rw [List.getLast?_append_of_ne_nil]
      · rfl
      · simp
    · simp only [commits_commitStore, commits_emit_event, commits_setDocStatus]
  · unfold process_document
    rw [hdoc]
    dsimp only
    rw [if_neg hne]
    unfold run_step
    rw [hocr]
    dsimp only
    rw [hext]
    dsimp only
    unfold failHandler
    refine ⟨_, rfl, ?_, ?_, ?_⟩
    · simp only [getDoc_commitStore, getDoc_emit_event, getDoc_setDocStatus, hdoc,
        Option.map_some]
      rfl
    · simp only [events_commitStore, events_emit_event, events_setDocStatus]
      rw [List.getLast?_append_of_ne_nil]
      · rfl
      · simp
    · simp only [commits_commitStore, commits_emit_event, commits_setDocStatus]

theorem failure_marks_failed_and_reraises_witness :
    ∃ st' : Store, process_document envErrW 1 stPendingW = RunResult.raised "boom" st'
      ∧ getDoc st' 1 = some ⟨"failed"⟩ := by
  obtain ⟨st', h1, h2, h3, h4⟩ := failure_marks_failed_and_reraises envErrW 1 stPendingW
    ⟨"pending"⟩ "boom" rfl (by decide) (Or.inl rfl)
  exact ⟨st', h1, h2⟩

theorem witness_validate_eval :
    validate exAllNone (some (get_existing_invoice_numbers stPendingW 1)) =
    [⟨"line_items_sum", true, 1, some Msg.skippedNoLineItems⟩,
     ⟨"tax_id_format", true, 1, some Msg.skippedNoTaxId⟩,
     ⟨"date_consistency", true, 1, some Msg.skippedNoInvoiceDate⟩,
     ⟨"duplicate_invoice", true, 1, some Msg.skippedNoInvoiceNumber⟩] := by
  decide

theorem witness_overall_eval :
    (compute_confidence (1 : ℚ) 0
      [⟨"line_items_sum", true, 1, some Msg.skippedNoLineItems⟩,
       ⟨"tax_id_format", true, 1, some Msg.skippedNoTaxId⟩,
       ⟨"date_consistency", true, 1, some Msg.skippedNoInvoiceDate⟩,
       ⟨"duplicate_invoice", true, 1, some Msg.skippedNoInvoiceNumber⟩]
      (some exAllNone)).overall = 3 / 5 := by
  norm_num [compute_confidence, round4, round_eq, List.isEmpty]

theorem final_status_review_or_completed_witness :
    ∃ st' : Store, process_document envOkW 1 stPendingW = RunResult.ok st'
      ∧ getDoc st' 1 = some ⟨"completed"⟩ := by
  obtain ⟨st', h1, h2⟩ := final_status_review_or_completed envOkW 1 stPendingW ⟨"pending"⟩
    ⟨"", 1⟩ exAllNone rfl (by decide) rfl rfl
  have hoc : (OCRResult.mk "" 1).confidence = (1 : ℚ) := rfl
  have hea : exAllNone.extraction_confidence = (0 : ℚ) := rfl
  rw [hoc, hea, witness_validate_eval, witness_overall_eval] at h2
  refine ⟨st', h1, ?_⟩
  rw [h2, if_neg]
  rw [not_or]
  exact ⟨by norm_num, by decide⟩

theorem audit_event_sequence_witness :
    ∃ st' : Store, process_document envOkW 1 stPendingW = RunResult.ok st'
      ∧ st'.events =
        [⟨1, "ocr", "started", none, none⟩,
         ⟨1, "ocr", "completed", none, some 5⟩,
         ⟨1, "extraction", "started", none, none⟩,
         ⟨1, "extraction", "completed", none, some 7⟩,
         ⟨1, "validation", "completed", some (EvDetail.valSummary 4 4), none⟩,
         ⟨1, "confidence", "completed", some (EvDetail.confOverall (3 / 5)), none⟩,
         ⟨1, "completed", "completed", some (EvDetail.finalStatus "completed" (3 / 5)), none⟩] := by
  obtain ⟨st', h1, h2⟩ := audit_event_sequence envOkW 1 stPendingW ⟨"pending"⟩
    ⟨"", 1⟩ exAllNone rfl (by decide) rfl rfl
  dsimp only at h2
  have hea : exAllNone.extraction_confidence = (0 : ℚ) := rfl
  rw [hea, witness_validate_eval, witness_overall_eval] at h2
  have hfin : (if (3 / 5 : ℚ) < 0.6 ∨
      ([⟨"line_items_sum", true, 1, some Msg.skippedNoLineItems⟩,
        ⟨"tax_id_format", true, 1, some Msg.skippedNoTaxId⟩,
        ⟨"date_consistency", true, 1, some Msg.skippedNoInvoiceDate⟩,
        ⟨"duplicate_invoice", true, 1, some Msg.skippedNoInvoiceNumber⟩] :
          List ValidationResult).all (fun vr => vr.passed) = false
      then "review" else "completed") = "completed" := by
    rw [if_neg]
    rw [not_or]
    exact ⟨by norm_num, by decide⟩
  rw [hfin] at h2
  refine ⟨st', h1, ?_⟩
  rw [h2]
  simp [stPendingW, envOkW]

/-! ### Last-write / first-write characterizations of the extractor loop -/

theorem foldl_if_last {α β : Type} (C : β → Bool) (f : β → Option α) :
    ∀ (ls : List β) (v : Option α),
      ls.foldl (fun acc l => if C l then f l else acc) v
        = (ls.reverse.find? C).elim v f := by
  intro ls
  induction ls with
  | nil => intro v; rfl
  | cons l t ih =>
    intro v
    rw [List.foldl_cons, ih, List.reverse_cons, List.find?_append]
    cases h : t.reverse.find? C with
    | some x => simp
    | none =>
      cases hC : C l <;> simp [List.find?, hC]

theorem foldl_if_first {α β : Type} (C : β → Bool) (f : β → Option α) :
    ∀ (ls : List β) (v : Option α),
      ls.foldl (fun acc l => if C l && acc.isNone then f l else acc) v
        = v.elim (ls.findSome? (fun l => if C l then f l else none)) some := by
  intro ls
  induction ls with
  | nil => intro v; cases v <;> rfl
  | cons l t ih =>
    intro v
    rw [List.foldl_cons, ih]
    cases v with
    | some x => simp
    | none =>
      cases hC : C l with
      | true =>
        rw [List.findSome?_cons]
        cases hf : f l <;> simp [hC, hf]
      | false =>
        rw [List.findSome?_cons]
        simp [hC]

theorem fold_vendor (ls : List (List Char)) : ∀ acc : SimpleAcc,
    (ls.foldl simpleStep acc).vendor_name = ls.foldl vendorStep acc.vendor_name := by
  induction ls with
  | nil => intro acc; rfl
  | cons l t ih => intro acc; rw [List.foldl_cons, List.foldl_cons]; exact ih (simpleStep acc l)

theorem fold_tax (ls : List (List Char)) : ∀ acc : SimpleAcc,
    (ls.foldl simpleStep acc).tax_id = ls.foldl taxStep acc.tax_id := by
  induction ls with
  | nil => intro acc; rfl
  | cons l t ih => intro acc; rw [List.foldl_cons, List.foldl_cons]; exact ih (simpleStep acc l)

theorem fold_inv (ls : List (List Char)) : ∀ acc : SimpleAcc,
    (ls.foldl simpleStep acc).invoice_number = ls.foldl invStep acc.invoice_number := by
  induction ls with
  | nil => intro acc; rfl
  | cons l t ih => intro acc; rw [List.foldl_cons, List.foldl_cons]; exact ih (simpleStep acc l)

theorem fold_total (ls : List (List Char)) : ∀ acc : SimpleAcc,
    (ls.foldl simpleStep acc).total_amount = ls.foldl totalStep acc.total_amount := by
  induction ls with
  | nil => intro acc; rfl
  | cons l t ih => intro acc; rw [List.foldl_cons, List.foldl_cons]; exact ih (simpleStep acc l)

theorem fold_invdate (ls : List (List Char)) : ∀ acc : SimpleAcc,
    (ls.foldl simpleStep acc).invoice_date = ls.foldl invoiceDateStep acc.invoice_date := by
  induction ls with
  | nil => intro acc; rfl
  | cons l t ih => intro acc; rw [List.foldl_cons, List.foldl_cons]; exact ih (simpleStep acc l)

theorem fold_duedate (ls : List (List Char)) : ∀ acc : SimpleAcc,
    (ls.foldl simpleStep acc).due_date = ls.foldl dueDateStep acc.due_date := by
  induction ls with
  | nil => intro acc; rfl
  | cons l t ih => intro acc; rw [List.foldl_cons, List.foldl_cons]; exact ih (simpleStep acc l)

theorem vendorStep_funext : vendorStep = (fun (v : Option String) (l : List Char) =>
    if vendorCue l && hasColon l then some (String.mk (pyStrip (afterFirstColon l))) else v) := by
  funext v l
  unfold vendorStep
  cases hc : vendorCue l <;> cases hk : hasColon l <;> simp [hc, hk]

theorem taxStep_funext : taxStep = (fun (v : Option String) (l : List Char) =>
    if taxCue l && hasColon l then some (String.mk (pyStrip (afterFirstColon l))) else v) := by
  funext v l
  unfold taxStep
  cases hc : taxCue l <;> cases hk : hasColon l <;> simp [hc, hk]

theorem invStep_funext : invStep = (fun (v : Option String) (l : List Char) =>
    if invCue l && hasColon l then some (String.mk (pyStrip (afterFirstColon l))) else v) := by
  funext v l
  unfold invStep
  cases hc : invCue l <;> cases hk : hasColon l <;> simp [hc, hk]

theorem totalStep_funext : totalStep = (fun (t : Option ℚ) (l : List Char) =>
    if totalCue l && !(amountStr l).isEmpty then parseDecimalStr (amountStr l) else t) := by
  funext t l
  unfold totalStep
  cases hc : totalCue l <;> cases he : (amountStr l).isEmpty <;> simp [hc, he]

theorem dueDateStep_funext : dueDateStep = (fun (v : Option DateT) (l : List Char) =>
    if dueCue l then parse_date (rawValue l) else v) := rfl

theorem invoiceDateStep_funext : invoiceDateStep = (fun (v : Option DateT) (l : List Char) =>
    if dateCue l && v.isNone then parse_date (rawValue l) else v) := rfl

/-- C10 (counterexample): the claim says the last total line with a
currency marker wins for `total_amount`.  The texts
`"Total: $100\nTotal: $x"` and `"Total: $200\nTotal: $x"` share the same
last matching line (`"Total: $x"`), yet they extract different totals —
a matching line whose digit-stripped amount string is empty leaves the
earlier value in place, so the last matching line does not determine the
result. -/
theorem simple_extract_total_last_match_refuted :
    ((("Total: $100\nTotal: $x" : String).toList.splitOn '\n').reverse.find? totalCue
      = ((("Total: $200\nTotal: $x" : String).toList.splitOn '\n').reverse.find? totalCue))
    ∧ (simple_extract "Total: $100\nTotal: $x").total_amount = some 100
    ∧ (simple_extract "Total: $200\nTotal: $x").total_amount = some 200 := by
  decide

/-- C10 (amended): in the pattern-based extractor, the last matching line
wins for `vendor_name`, `tax_id` and `invoice_number` among lines
containing a colon; for `total_amount` the last total line with a currency
marker **whose digit-and-dot-stripped amount string is non-empty** wins
(its parse failure — e.g. two decimal points — resets the total to
absent, while a matching line with an empty amount string leaves the
previous value in place); for `due_date` the last matching line wins, a
parse failure resetting it to absent; only `invoice_date` keeps the first
successfully parsed match and is never overwritten once set. -/
theorem simple_extract_overwrite_semantics (text : String) :
    (let ls := text.toList.splitOn '\n';
     (simple_extract text).vendor_name
        = (ls.reverse.find? (fun l => vendorCue l && hasColon l)).map
            (fun l => String.mk (pyStrip (afterFirstColon l)))
      ∧ (simple_extract text).tax_id
        = (ls.reverse.find? (fun l => taxCue l && hasColon l)).map
            (fun l => String.mk (pyStrip (afterFirstColon l)))
      ∧ (simple_extract text).invoice_number
        = (ls.reverse.find? (fun l => invCue l && hasColon l)).map
            (fun l => String.mk (pyStrip (afterFirstColon l)))
      ∧ (simple_extract text).total_amount
        = (ls.reverse.find? (fun l => totalCue l && !(amountStr l).isEmpty)).bind
            (fun l => parseDecimalStr (amountStr l))
      ∧ (simple_extract text).due_date
        = (ls.reverse.find? dueCue).bind (fun l => parse_date (rawValue l))
      ∧ (simple_extract text).invoice_date
        = ls.findSome? (fun l => if dateCue l then parse_date (rawValue l) else none)) := by
  dsimp only
  refine ⟨?_, ?_, ?_, ?_, ?_, ?_⟩
  · unfold simple_extract
    dsimp only
    rw [fold_vendor, vendorStep_funext, foldl_if_last]
    cases h : (text.toList.splitOn '\n').reverse.find? (fun l => vendorCue l && hasColon l) <;>
      simp [h]
  · unfold simple_extract
    dsimp only
    rw [fold_tax, taxStep_funext, foldl_if_last]
    cases h : (text.toList.splitOn '\n').reverse.find? (fun l => taxCue l && hasColon l) <;>
      simp [h]
  · unfold simple_extract
    dsimp only
    rw [fold_inv, invStep_funext, foldl_if_last]
    cases h : (text.toList.splitOn '\n').reverse.find? (fun l => invCue l && hasColon l) <;>
      simp [h]
  · unfold simple_extract
    dsimp only
    rw [fold_total, totalStep_funext, foldl_if_last]
    cases h : (text.toList.splitOn '\n').reverse.find?
        (fun l => totalCue l && !(amountStr l).isEmpty) <;> simp [h]
  · unfold simple_extract
    dsimp only
    rw [fold_duedate, dueDateStep_funext, foldl_if_last]
    cases h : (text.toList.splitOn '\n').reverse.find? dueCue <;> simp [h]
  · unfold simple_extract
    dsimp only
    rw [fold_invdate, invoiceDateStep_funext, foldl_if_first]
    rfl
